import Mathlib

/-!
# Verification of the ConceptCycle frontend coordination layer

A shallow embedding of `src/main.py`: the identifier codec (display labels
for selector widgets), the per-session state record, and the workflow
handlers (refresh/delete notes, load concepts, create/submit quiz).
Python strings are modelled as `List Char`, Python dicts with optional keys
as structures of `Option` fields, HTTP calls as function parameters, and
raising code as `Option`-returning functions.
-/

set_option autoImplicit false

/-- Python strings are modelled as lists of characters. -/
abbrev Str := List Char

/-- The separator used by the display-label codec in `main.py`: `" — "`
(space, em dash, space). -/
def SEP : Str := [' ', '—', ' ']

/-- `isPre p s` models the check that `p` occurs at the start of `s`
(the per-position comparison performed by Python's `str.split` scanner
and by `str.startswith`). -/
def isPre : Str → Str → Bool
  | [], _ => true
  | _ :: _, [] => false
  | a :: p, b :: s => a == b && isPre p s

/-- `hasSub pat s` models Python's substring containment test
`pat in s` (for our fixed non-empty patterns). -/
def hasSub (pat : Str) : Str → Bool
  | [] => pat.isEmpty
  | c :: rest => isPre pat (c :: rest) || hasSub pat rest

/-- `endsWith pat s` holds when `s` ends with `pat` (used only to state
side conditions of the codec round-trip; not part of the source). -/
def endsWith (pat s : Str) : Bool := isPre pat.reverse s.reverse

/-- Fuelled left-to-right scanner for Python's `s.split(" — ")`:
at each position, if the separator matches, cut and skip it; otherwise the
current character joins the current segment.  Python's `str.split` with a
non-empty separator performs exactly this leftmost non-overlapping scan. -/
def splitSepF : Nat → Str → List Str
  | 0, s => [s]
  | _ + 1, [] => [[]]
  | fuel + 1, c :: rest =>
    if isPre SEP (c :: rest) then
      [] :: splitSepF fuel ((c :: rest).drop 3)
    else
      match splitSepF fuel rest with
      | [] => [[c]]
      | hd :: tl => (c :: hd) :: tl

/-- `splitSep s` models `s.split(" — ")` from `main.py`
(`s.length` fuel is enough: every step consumes at least one character). -/
def splitSep (s : Str) : List Str := splitSepF s.length s

/-- `pyLast l` models the Python indexing `l[-1]` on the (always
non-empty) result of `str.split`. -/
def pyLast : List Str → Str
  | [] => []
  | [a] => a
  | _ :: b :: rest => pyLast (b :: rest)

/-- Embedding of `_format_note_choice(row)` from `main.py`:
`f"{name} — {nid}"` for a note row `(id, name, status)`. -/
def format_note_choice (row : Str × Str × Str) : Str :=
  row.2.1 ++ SEP ++ row.1

/-- Embedding of `_format_note_choices(rows)` from `main.py`. -/
def format_note_choices (rows : List (Str × Str × Str)) : List Str :=
  rows.map format_note_choice

/-- A quiz as used by `_format_quiz_choice`: a JSON object whose `id` and
`name` keys may be absent (`q.get`). -/
structure Quiz where
  id : Option Str
  name : Option Str
deriving DecidableEq

/-- The fallback label `f"Quiz {qid[:8]}"` used when a quiz has no
(truthy) name. -/
def quizFallback (qid : Str) : Str := "Quiz ".toList ++ qid.take 8

/-- The effective human-readable part of a quiz label:
`q.get("name") or f"Quiz {qid[:8]}"` (a missing or empty name is falsy). -/
def quizDisplayName (q : Quiz) : Str :=
  match q.name with
  | none => quizFallback (q.id.getD [])
  | some n => if n.isEmpty then quizFallback (q.id.getD []) else n

/-- Embedding of `_format_quiz_choice(q)` from `main.py`:
`f"{qname} — {qid}"`. -/
def format_quiz_choice (q : Quiz) : Str :=
  quizDisplayName q ++ SEP ++ q.id.getD []

/-- Embedding of `_extract_id_from_display(sel)` from `main.py`:
`None` stays `None`, an empty string is falsy and yields `None`,
otherwise split on `" — "` and take the last segment when the separator
occurs, else return the input unchanged. -/
def extract_id_from_display : Option Str → Option Str
  | none => none
  | some sel =>
    if sel.isEmpty then none
    else if hasSub SEP sel then some (pyLast (splitSep sel))
    else some sel

/-- Embedding of `_extract_ids_from_display_list(sel_list)` from
`main.py` (a missing or empty list yields `[]`; mapping over `[]` gives
`[]` as well, so both falsy cases coincide). -/
def extract_ids_from_display_list (sels : Option (List Str)) : List Str :=
  match sels with
  | none => []
  | some l => l.map (fun s => if hasSub SEP s then pyLast (splitSep s) else s)

example : splitSep "a — b".toList = ["a".toList, "b".toList] := by decide
example : splitSep "a — — b".toList = ["a".toList, "— b".toList] := by decide
example :
    extract_id_from_display (some (format_note_choice
      ("n1".toList, "Alpha".toList, "uploaded".toList))) = some "n1".toList := by
  decide
example :
    extract_id_from_display (some (format_note_choice
      ("b".toList, "a —".toList, "s".toList))) = some "— b".toList := by
  decide

/-! ### Lemmas about the split scanner -/

theorem splitSepF_ne_nil (fuel : Nat) (s : Str) : splitSepF fuel s ≠ [] := by
  match fuel, s with
  | 0, s => simp [splitSepF]
  | _ + 1, [] => simp [splitSepF]
  | fuel + 1, c :: rest =>
    simp only [splitSepF]
    split
    · simp
    · split <;> simp

theorem isPre_append_self (p s : Str) : isPre p (p ++ s) = true := by
  induction p with
  | nil => simp [isPre]
  | cons a p ih => simp [isPre, ih]

theorem isPre_append_right (p r w : Str) (h : isPre p r = true) :
    isPre p (r ++ w) = true := by
  induction p generalizing r with
  | nil => simp [isPre]
  | cons a p ih =>
    cases r with
    | nil => simp [isPre] at h
    | cons b r =>
      simp only [isPre, Bool.and_eq_true] at h ⊢
      exact ⟨h.1, ih r h.2⟩

theorem hasSub_of_isPre (pat s : Str) (h : isPre pat s = true) :
    hasSub pat s = true := by
  cases s with
  | nil =>
    cases pat with
    | nil => rfl
    | cons a p => simp [isPre] at h
  | cons c rest => simp [hasSub, h]

theorem hasSub_append_self (pat x y : Str) :
    hasSub pat (x ++ pat ++ y) = true := by
  induction x with
  | nil => exact hasSub_of_isPre _ _ (isPre_append_self pat y)
  | cons c x ih =>
    simp only [List.cons_append, hasSub, Bool.or_eq_true]
    exact Or.inr (by simpa using ih)

theorem splitSepF_no_sep (fuel : Nat) (s : Str) (hf : s.length ≤ fuel)
    (h : hasSub SEP s = false) : splitSepF fuel s = [s] := by
  induction fuel generalizing s with
  | zero => rfl
  | succ fuel ih =>
    cases s with
    | nil => rfl
    | cons c rest =>
      simp only [hasSub, Bool.or_eq_false_iff] at h
      simp only [splitSepF, h.1, if_false]
      rw [ih rest (by simpa using Nat.le_of_succ_le_succ hf) h.2]
      simp

theorem splitSepF_two_le (fuel : Nat) (s : Str) (hf : s.length ≤ fuel)
    (h : hasSub SEP s = true) : 2 ≤ (splitSepF fuel s).length := by
  induction fuel generalizing s with
  | zero =>
    have : s = [] := List.length_eq_zero.mp (Nat.le_zero.mp hf)
    subst this
    simp [hasSub, List.isEmpty] at h
    exact absurd h (by decide)
  | succ fuel ih =>
    cases s with
    | nil =>
      simp [hasSub, List.isEmpty] at h
      exact absurd h (by decide)
    | cons c rest =>
      simp only [splitSepF]
      split
      · have := splitSepF_ne_nil fuel ((c :: rest).drop 3)
        cases hL : splitSepF fuel ((c :: rest).drop 3) with
        | nil => exact absurd hL this
        | cons a l => simp
      · rename_i hip
        simp only [hasSub, hip, Bool.false_or] at h
        have h2 := ih rest (by simpa using Nat.le_of_succ_le_succ hf) h
        cases hL : splitSepF fuel rest with
        | nil => exact absurd hL (splitSepF_ne_nil fuel rest)
        | cons hd tl =>
          rw [hL] at h2
          simpa using h2

theorem pyLast_cons (a : Str) (l : List Str) (h : l ≠ []) :
    pyLast (a :: l) = pyLast l := by
  cases l with
  | nil => exact absurd rfl h
  | cons b rest => rfl

theorem endsWith_append (pat u t : Str) (h : endsWith pat t = true) :
    endsWith pat (u ++ t) = true := by
  unfold endsWith at h ⊢
  rw [List.reverse_append]
  exact isPre_append_right _ _ _ h

theorem splitSepF_cons_pos (fuel : Nat) (c : Char) (rest : Str)
    (h : isPre SEP (c :: rest) = true) :
    splitSepF (fuel + 1) (c :: rest) = [] :: splitSepF fuel ((c :: rest).drop 3) := by
  simp [splitSepF, h]

theorem splitSepF_cons_neg (fuel : Nat) (c : Char) (rest : Str)
    (h : isPre SEP (c :: rest) = false) :
    splitSepF (fuel + 1) (c :: rest) =
      match splitSepF fuel rest with
      | [] => [[c]]
      | hd :: tl => (c :: hd) :: tl := by
  simp [splitSepF, h]

theorem isPre_sep_second_space (c : Char) (x : Str) :
    isPre SEP (c :: ' ' :: x) = false := by
  simp [SEP, isPre]

/-- Key property of the leftmost non-overlapping scan: on a label
`name ++ " — " ++ id` the last segment is `id`, provided the separator
does not occur inside `id` and `name` does not end with `" —"` (a name
ending in `" —"` lets a match straddle the name/separator boundary). -/
theorem splitSepF_label : ∀ (fuel : Nat) (name id : Str),
    (name ++ SEP ++ id).length ≤ fuel →
    hasSub SEP id = false → endsWith [' ', '—'] name = false →
    pyLast (splitSepF fuel (name ++ SEP ++ id)) = id := by
  intro fuel
  induction fuel with
  | zero =>
    intro name id hf _ _
    exfalso
    simp [SEP, List.length_append] at hf
  | succ fuel ih =>
    intro name id hf hid hname
    cases name with
    | nil =>
      have hip : isPre SEP (' ' :: '—' :: ' ' :: id) = true := isPre_append_self SEP id
      have e : ([] : Str) ++ SEP ++ id = ' ' :: '—' :: ' ' :: id := rfl
      rw [e, splitSepF_cons_pos fuel _ _ hip]
      have e2 : (' ' :: '—' :: ' ' :: id).drop 3 = id := rfl
      rw [e2, splitSepF_no_sep fuel id (by simp [SEP] at hf; omega) hid]
      rfl
    | cons c name' =>
      have e : (c :: name') ++ SEP ++ id = c :: (name' ++ SEP ++ id) := rfl
      rw [e]
      cases hip : isPre SEP (c :: (name' ++ SEP ++ id)) with
      | true =>
        cases name' with
        | nil =>
          have hip' : isPre SEP (c :: ' ' :: '—' :: ' ' :: id) = true := hip
          simp [isPre_sep_second_space] at hip'
        | cons d name'' =>
          cases name'' with
          | nil =>
            have hip' : isPre SEP (c :: d :: ' ' :: '—' :: ' ' :: id) = true := hip
            simp only [SEP, isPre, Bool.and_eq_true, beq_iff_eq] at hip'
            obtain ⟨hc, hd, -⟩ := hip'
            subst hc; subst hd
            exact absurd hname (by decide)
          | cons e' name₃ =>
            rw [splitSepF_cons_pos fuel _ _ hip]
            have e2 : (c :: ((d :: e' :: name₃) ++ SEP ++ id)).drop 3
                = name₃ ++ SEP ++ id := rfl
            rw [e2]
            have hname₃ : endsWith [' ', '—'] name₃ = false := by
              cases h3 : endsWith [' ', '—'] name₃ with
              | false => rfl
              | true =>
                have h4 := endsWith_append [' ', '—'] [c, d, e'] name₃ h3
                have e3 : [c, d, e'] ++ name₃ = c :: d :: e' :: name₃ := rfl
                rw [e3] at h4
                simp [h4] at hname
            rw [pyLast_cons [] _ (splitSepF_ne_nil _ _)]
            exact ih name₃ id (by simp [SEP, List.length_append] at hf ⊢; omega)
              hid hname₃
      | false =>
        rw [splitSepF_cons_neg fuel _ _ hip]
        have hsub : hasSub SEP (name' ++ SEP ++ id) = true :=
          hasSub_append_self SEP name' id
        have hlen : (name' ++ SEP ++ id).length ≤ fuel := by
          simp [SEP, List.length_append] at hf ⊢; omega
        have h2 := splitSepF_two_le fuel _ hlen hsub
        have hname' : endsWith [' ', '—'] name' = false := by
          cases h3 : endsWith [' ', '—'] name' with
          | false => rfl
          | true =>
            have h4 := endsWith_append [' ', '—'] [c] name' h3
            have e3 : [c] ++ name' = c :: name' := rfl
            rw [e3] at h4
            simp [h4] at hname
        have hmain := ih name' id hlen hid hname'
        cases hL : splitSepF fuel (name' ++ SEP ++ id) with
        | nil => exact absurd hL (splitSepF_ne_nil _ _)
        | cons hd tl =>
          rw [hL] at h2 hmain
          have htl : tl ≠ [] := by
            intro hteq
            subst hteq
            simp at h2
          show pyLast ((c :: hd) :: tl) = id
          rw [pyLast_cons _ _ htl, ← pyLast_cons hd tl htl]
          exact hmain

/-- Full decode-of-encode statement at the level of
`_extract_id_from_display`: for any label `name ++ " — " ++ id` the decoder
recovers `id`, provided the separator does not occur in `id` and the name
does not end with `" —"`. -/
theorem extract_label_roundtrip (name id : Str)
    (hid : hasSub SEP id = false) (hname : endsWith [' ', '—'] name = false) :
    extract_id_from_display (some (name ++ SEP ++ id)) = some id := by
  have hne : (name ++ SEP ++ id).isEmpty = false := by
    cases name <;> rfl
  have hsub : hasSub SEP (name ++ SEP ++ id) = true :=
    hasSub_append_self SEP name id
  have hmain := splitSepF_label (name ++ SEP ++ id).length name id
    (le_refl _) hid hname
  show (if (name ++ SEP ++ id).isEmpty = true then none
      else if hasSub SEP (name ++ SEP ++ id) = true then
        some (pyLast (splitSep (name ++ SEP ++ id)))
      else some (name ++ SEP ++ id)) = some id
  rw [hne, hsub]
  simp only [Bool.false_eq_true, if_false, if_true]
  exact congrArg some hmain

/-- **C1** (amended). For every note `(id, name, status)` whose id does not
contain the separator `" — "` and whose name does not end with the two
characters `" —"`, decoding the encoded display label yields the original
id; in particular the name may contain the full separator internally.
Without those two side conditions the claimed round-trip fails, because
`str.split` performs a leftmost non-overlapping scan rather than taking
the segment after the last occurrence of the separator. -/
theorem note_label_roundtrip (nid name status : Str)
    (hid : hasSub SEP nid = false)
    (hname : endsWith [' ', '—'] name = false) :
    extract_id_from_display (some (format_note_choice (nid, name, status)))
      = some nid := by
  unfold format_note_choice
  exact extract_label_roundtrip name nid hid hname

/-- Witness for the amended C1 theorem at a concrete note whose name
contains the separator. -/
theorem note_label_roundtrip_witness :
    extract_id_from_display (some (format_note_choice
      ("n1".toList, "Alpha — Beta".toList, "uploaded".toList)))
      = some "n1".toList :=
  note_label_roundtrip "n1".toList "Alpha — Beta".toList "uploaded".toList
    (by decide) (by decide)

/-- **C1 counterexample**: for the note `(id := "b", name := "a —",
status := "processed")` — the name does not even contain the full
separator — the label is `"a — — b"`, the leftmost scan matches at the
second character, and decoding returns `"— b"`, not `"b"`. -/
theorem note_label_roundtrip_cex :
    extract_id_from_display (some (format_note_choice
      ("b".toList, "a —".toList, "processed".toList))) ≠ some "b".toList := by
  decide

/-- **C2** (amended). For every quiz whose id does not contain the
separator `" — "` and whose effective display name (the quiz's name, or
the fallback `"Quiz " ++` first 8 characters of the id when the name is
absent or empty) does not end with `" —"`, decoding the encoded quiz
label yields the quiz's id; and when the quiz has no name the label's
human-readable part is exactly the fallback. -/
theorem quiz_label_roundtrip (q : Quiz)
    (hid : hasSub SEP (q.id.getD []) = false)
    (hname : endsWith [' ', '—'] (quizDisplayName q) = false) :
    (q.name = none →
      format_quiz_choice q
        = quizFallback (q.id.getD []) ++ SEP ++ q.id.getD []) ∧
    extract_id_from_display (some (format_quiz_choice q))
      = some (q.id.getD []) := by
  constructor
  · intro hn
    simp [format_quiz_choice, quizDisplayName, hn]
  · unfold format_quiz_choice
    exact extract_label_roundtrip _ _ hid hname

/-- Witness for the amended C2 theorem at a concrete nameless quiz. -/
theorem quiz_label_roundtrip_witness :
    extract_id_from_display (some (format_quiz_choice
      ⟨some "q123abc".toList, none⟩)) = some "q123abc".toList :=
  (quiz_label_roundtrip ⟨some "q123abc".toList, none⟩ (by decide) (by decide)).2

/-- **C2 counterexample**: the nameless quiz with id `"abcdef —X"` (the
id does not contain the separator `" — "`) gets the fallback label
`"Quiz abcdef — — abcdef —X"`; the leftmost scan straddles the
fallback/separator boundary and decoding returns `"— abcdef —X"`, not
the quiz's id. -/
theorem quiz_label_roundtrip_cex :
    extract_id_from_display (some (format_quiz_choice
      ⟨some "abcdef —X".toList, none⟩)) ≠ some "abcdef —X".toList := by
  decide

/-! ### Session state and the submit-quiz workflow -/

/-- The per-session UI state initialized as
`{"last_note_id": None, "last_quiz_id": None}` in `main.py`. -/
structure Cfg where
  last_note_id : Option Str
  last_quiz_id : Option Str
deriving DecidableEq

/-- Python falsiness of an optional string (`None`, or present but
empty). -/
def isFalsyOpt : Option Str → Bool
  | none => true
  | some s => s.isEmpty

/-- ASCII whitespace stripped by Python's `str.strip()`. -/
def isPySpace (c : Char) : Bool :=
  c == ' ' || c == '\t' || c == '\n' || c == '\r' || c == '\x0b' || c == '\x0c'

/-- Embedding of Python's `str.strip()` on a string cell. -/
def pyStrip (s : Str) : Str :=
  ((s.dropWhile isPySpace).reverse.dropWhile isPySpace).reverse

/-- The answer table passed to `_submit_quiz`: either a pandas-style frame
with an `answer` column (the `hasattr(df, "answer")` branch) or a plain
list of rows. -/
inductive QuizDf where
  | frame (answer : List Str)
  | table (rows : List (List Str))
deriving DecidableEq

/-- The `try` block of `_submit_quiz`: the stripped answer column.  In the
row-list branch an empty table yields `[]`; a malformed row (fewer than
two cells) raises `IndexError` inside the comprehension and the `except`
clause leaves `answers = []`. -/
def extractAnswers : QuizDf → List Str
  | .frame col => col.map pyStrip
  | .table rows =>
    if rows.isEmpty then []
    else if rows.all (fun r => 2 ≤ r.length) then
      rows.map (fun r => pyStrip (r.getD 1 []))
    else []

/-- What `_submit_quiz` returns: the `{"error": ...}` dict or the grading
payload passed on verbatim. -/
inductive SubmitRes where
  | error (msg : Str)
  | payload (out : Str)
deriving DecidableEq

/-- Embedding of `_submit_quiz(cfg, df)` from `main.py`.  The HTTP call
`submit_quiz` is abstracted as `api` (success flag plus payload-or-error
text); the boolean in the result records whether the API was called. -/
def submit_quiz_handler (api : Str → List Str → Bool × Str)
    (cfg : Cfg) (df : QuizDf) : SubmitRes × Bool :=
  if isFalsyOpt cfg.last_quiz_id then
    (.error "No quiz loaded in this session.".toList, false)
  else
    let quiz_id := cfg.last_quiz_id.getD []
    let answers := extractAnswers df
    if answers.isEmpty || answers.any List.isEmpty then
      (.error "All questions must be attempted before submission".toList,
       false)
    else
      let r := api quiz_id answers
      if r.1 then (.payload r.2, true) else (.error r.2, true)

/-- **C3** (confirmed). With no `last_quiz_id` recorded in the session
state, the submit-quiz workflow returns the error
"No quiz loaded in this session." — whose text begins with the quoted
"No quiz loaded" — and does not call the submit API, whatever the table
contains and whatever the API would have answered. -/
theorem submit_without_quiz_id (api : Str → List Str → Bool × Str)
    (lastNote : Option Str) (df : QuizDf) :
    submit_quiz_handler api ⟨lastNote, none⟩ df
        = (.error "No quiz loaded in this session.".toList, false) ∧
    isPre "No quiz loaded".toList "No quiz loaded in this session.".toList
        = true :=
  ⟨rfl, by decide⟩

/-- **C4** (confirmed). With a quiz loaded, if the stripped answer column
is empty or contains a blank answer, submit-quiz reports the
all-questions-must-be-attempted error and does not call the API. -/
theorem submit_blank_answer_rejected (api : Str → List Str → Bool × Str)
    (cfg : Cfg) (df : QuizDf)
    (hq : isFalsyOpt cfg.last_quiz_id = false)
    (ha : (extractAnswers df).isEmpty = true
       ∨ (extractAnswers df).any List.isEmpty = true) :
    submit_quiz_handler api cfg df
      = (.error "All questions must be attempted before submission".toList,
         false) := by
  unfold submit_quiz_handler
  rw [hq]
  rcases ha with h | h <;> simp [h]

/-- Witness for C4: a loaded quiz whose single answer is whitespace-only
is rejected without an API call. -/
theorem submit_blank_answer_rejected_witness :
    submit_quiz_handler (fun _ _ => (true, "{}".toList))
      ⟨none, some "q1".toList⟩
      (QuizDf.table [["Q1".toList, "  ".toList]])
      = (.error "All questions must be attempted before submission".toList,
         false) :=
  submit_blank_answer_rejected _ _ _ (by decide) (Or.inr (by decide))

/-! ### Process-note and the notes table -/

/-- Embedding of `_process(cfg, sel_note_display)` from `main.py`; the
HTTP call `process_note` is abstracted as `api` (success flag and status
message).  On success `last_note_id` is set to the decoded id, on failure
it is re-assigned its previous value. -/
def process_handler (api : Str → Bool × Str) (cfg : Cfg)
    (sel : Option Str) : Str × Cfg :=
  let nid? := extract_id_from_display sel
  if isFalsyOpt nid? then ("⚠️ No note selected.".toList, cfg)
  else
    let nid := nid?.getD []
    let r := api nid
    (r.2,
     { cfg with last_note_id := if r.1 then some nid else cfg.last_note_id })

/-- **C7** (confirmed). After the process-note workflow the session state
either equals the state before it (nothing selected, or the processing
call failed), or the processing call succeeded and the only change is
`last_note_id :=` the decoded note id (with `last_quiz_id` untouched);
in particular a failed operation leaves the session state untouched. -/
theorem process_note_state (api : Str → Bool × Str) (cfg : Cfg)
    (sel : Option Str) :
    (process_handler api cfg sel).2 = cfg ∨
    ((api ((extract_id_from_display sel).getD [])).1 = true ∧
     (process_handler api cfg sel).2
       = ⟨some ((extract_id_from_display sel).getD []), cfg.last_quiz_id⟩) := by
  obtain ⟨ln, lq⟩ := cfg
  unfold process_handler
  cases hf : isFalsyOpt (extract_id_from_display sel) with
  | true => left; simp [hf]
  | false =>
    cases hok : (api ((extract_id_from_display sel).getD [])).1 with
    | true => right; exact ⟨rfl, by simp [hf, hok]⟩
    | false => left; simp [hf, hok]

/-- An update instruction for a dropdown widget
(`gr.update(choices=..., value=...)`). -/
structure DropdownUpdate where
  choices : List Str
  value : Option Str
deriving DecidableEq

/-- Embedding of `_refresh_notes(_cfg)` from `main.py`; the note list
returned by `list_notes` is the parameter `notes`.  Rows are
`[n[1], n[2]]`, i.e. `(name, status)`; the first choice is pre-selected
when there is one. -/
def refresh_notes_handler (notes : List (Str × Str × Str)) :
    List (List Str) × DropdownUpdate :=
  let rows := notes.map (fun n => [n.2.1, n.2.2])
  let choices := format_note_choices notes
  (rows, ⟨choices, choices.head?⟩)

/-- Embedding of `_delete_note(cfg, sel_note_display)` from `main.py`;
`apiDelete` abstracts the DELETE call and `notesAfter` the note list
returned by the re-listing call after a successful delete.  Note the
re-list rows are `[n[0], n[1], n[2]]`, i.e. `(id, name, status)`. -/
def delete_note_handler (apiDelete : Str → Bool × Str)
    (notesAfter : List (Str × Str × Str)) (sel : Option Str) :
    Str × List (List Str) × DropdownUpdate :=
  let nid? := extract_id_from_display sel
  if isFalsyOpt nid? then
    ("⚠️ No note selected.".toList, [], ⟨[], none⟩)
  else
    let r := apiDelete (nid?.getD [])
    if r.1 = false then
      ("❌ ".toList ++ r.2, [], ⟨[], none⟩)
    else
      let rows := notesAfter.map (fun n => [n.1, n.2.1, n.2.2])
      ("✅ Note deleted.".toList, rows, ⟨format_note_choices notesAfter, none⟩)

/-- **C8**: the refresh-notes workflow builds two-cell `(name, status)`
rows, but the automatic re-list after a successful delete builds
three-cell `(id, name, status)` rows: at the concrete note
`("n1", "Alpha", "uploaded")` the delete path produces the row
`["n1", "Alpha", "uploaded"]`, which differs from the `(name, status)`
row the claim (and the table's two declared headers) prescribe. -/
theorem notes_table_row_shapes :
    (refresh_notes_handler
        [("n1".toList, "Alpha".toList, "uploaded".toList)]).1
      = [["Alpha".toList, "uploaded".toList]] ∧
    (delete_note_handler (fun _ => (true, "{}".toList))
        [("n1".toList, "Alpha".toList, "uploaded".toList)]
        (some "Alpha — n1".toList)).2.1
      = [["n1".toList, "Alpha".toList, "uploaded".toList]] ∧
    [["n1".toList, "Alpha".toList, "uploaded".toList]]
      ≠ [["Alpha".toList, "uploaded".toList]] := by
  refine ⟨rfl, by decide, by decide⟩

/-! ### Create-quiz -/

/-- The quiz payload used by `_create_quiz` on success: `out["id"]` and
the `question` fields of `out.get("questions", [])`. -/
structure QuizPayload where
  id : Str
  questions : List Str
deriving DecidableEq

/-- What `_create_quiz` returns: the error paths return a pair (JSON
value, dataframe update) whereas the success path returns a triple that
additionally carries the updated session state. -/
inductive CreateQuizRet where
  | pair (err : Str) (rows : List (List Str))
  | triple (out : QuizPayload) (rows : List (List Str)) (cfg : Cfg)
deriving DecidableEq

/-- Number of values in a `_create_quiz` return tuple. -/
def CreateQuizRet.size : CreateQuizRet → Nat
  | .pair _ _ => 2
  | .triple _ _ _ => 3

/-- Embedding of `_create_quiz(cfg, sel_note_displays, climit, qlimit,
mode)` from `main.py`; `api` abstracts the POST call of `create_quiz`,
returning either the error text or the created quiz payload. -/
def create_quiz_handler
    (api : List Str → Int → Int → Str → Str ⊕ QuizPayload)
    (cfg : Cfg) (sels : Option (List Str)) (climit qlimit : Int)
    (mode : Str) : CreateQuizRet :=
  let note_ids := extract_ids_from_display_list sels
  if note_ids.isEmpty then .pair "Select at least one note.".toList []
  else
    match api note_ids climit qlimit mode with
    | .inl err => .pair err []
    | .inr out =>
      .triple out (out.questions.map (fun q => [q, []]))
        { cfg with last_quiz_id := some out.id }

/-- **C9** (confirmed). `_create_quiz` does not return the same number of
outputs on every path: the empty-selection branch and the API-failure
branch return two values (omitting the session state), while the success
path returns three, the third being the updated session state — although
the click handler is wired to three output components. -/
theorem create_quiz_output_arity
    (api : List Str → Int → Int → Str → Str ⊕ QuizPayload)
    (cfg : Cfg) (sels : Option (List Str)) (climit qlimit : Int)
    (mode : Str) :
    (create_quiz_handler api cfg sels climit qlimit mode).size
      = (if (extract_ids_from_display_list sels).isEmpty then 2
         else
           match api (extract_ids_from_display_list sels) climit qlimit mode
             with
           | .inl _ => 2
           | .inr _ => 3) := by
  unfold create_quiz_handler
  cases h : (extract_ids_from_display_list sels).isEmpty with
  | true => simp [h, CreateQuizRet.size]
  | false =>
    cases hapi : api (extract_ids_from_display_list sels) climit qlimit mode
      with
    | inl e => simp [h, hapi, CreateQuizRet.size]
    | inr p => simp [h, hapi, CreateQuizRet.size]

/-! ### The concepts table -/

/-- Per-concept SRS scheduling fields (`srs_info`), each possibly
absent. -/
structure SrsInfo where
  stability : Option ℚ
  difficulty : Option ℚ
  due : Option Str
  last_review : Option Str
deriving DecidableEq

/-- A concept as returned by the list-concepts API; `srs_info` itself may
be absent (`c.get("srs_info", {})`). -/
structure ConceptItem where
  name : Option Str
  content : Option Str
  srs_info : Option SrsInfo
deriving DecidableEq

/-- A dataframe cell produced by `_load_concepts`: a string or a rounded
number. -/
inductive Cell where
  | str (s : Str)
  | num (q : ℚ)
deriving DecidableEq

/-- Python's built-in `round` to the nearest integer, halves to even. -/
def pyRoundInt (q : ℚ) : Int :=
  let f : Int := ⌊q⌋
  if q - f < 1 / 2 then f
  else if (1 : ℚ) / 2 < q - f then f + 1
  else if f % 2 = 0 then f else f + 1

/-- Python `round(v, 2)`: round to two decimal places, halves to even. -/
def pyRound2 (q : ℚ) : ℚ := (pyRoundInt (q * 100) : ℚ) / 100

/-- The difficulty rescaling of `_load_concepts`:
`round(((float(x) - 1) / 9) * 100, 2)`. -/
def difficultyPercent (x : ℚ) : ℚ := pyRound2 ((x - 1) / 9 * 100)

/-- A numeric cell of `_load_concepts`:
`"" if not (x := s.get(key)) else f(x)` — an absent value, and equally a
present value equal to `0`, is falsy and renders as the empty string. -/
def numCell (f : ℚ → ℚ) : Option ℚ → Cell
  | none => .str []
  | some x => if x = 0 then .str [] else .num (f x)

/-- A date cell of `_load_concepts`:
`"" if not (x := s.get(key, "")) else datetime.fromisoformat(x).strftime(...)`
— the parse/format step, which may raise on a malformed date, is
abstracted as `fmt` with `none` modelling a raise; it is only reached for
a non-empty date string. -/
def dateCell (fmt : Str → Option Str) (x : Str) : Option Cell :=
  if x.isEmpty then some (.str []) else (fmt x).map .str

/-- The row built for one concept by the loop of `_load_concepts`
(`none` models an uncaught exception from date parsing). -/
def buildConceptRow (fmt : Str → Option Str) (c : ConceptItem) :
    Option (List Cell) :=
  let s := c.srs_info.getD ⟨none, none, none, none⟩
  (dateCell fmt (s.due.getD [])).bind fun dueC =>
    (dateCell fmt (s.last_review.getD [])).map fun lrC =>
      [.str (c.name.getD []), .str (c.content.getD []),
       numCell pyRound2 s.stability, numCell difficultyPercent s.difficulty,
       dueC, lrC]

/-- Embedding of the row loop of `_load_concepts` over the whole concept
list. -/
def load_concepts_rows (fmt : Str → Option Str) (raw : List ConceptItem) :
    Option (List (List Cell)) :=
  raw.mapM (buildConceptRow fmt)

example :
    buildConceptRow (fun _ => none)
      ⟨some "N".toList, some "C".toList, some ⟨some 3, some (11/2), none, none⟩⟩
      = some [.str "N".toList, .str "C".toList, .num 3, .num 50, .str [],
              .str []] := by
  norm_num [buildConceptRow, dateCell, numCell, difficultyPercent, pyRound2,
    pyRoundInt]

/-- **C5** (confirmed). The difficulty rescaling `(raw - 1) / 9 * 100`
rounded to 2 decimals maps raw 1 to 0, raw 10 to 100 and raw 5.5 to 50,
and the concept row builder renders difficulty cells with exactly these
numbers at those raw values. -/
theorem difficulty_rescale_anchors :
    difficultyPercent 1 = 0 ∧ difficultyPercent 10 = 100 ∧
    difficultyPercent (11 / 2) = 50 ∧
    numCell difficultyPercent (some 1) = .num 0 ∧
    numCell difficultyPercent (some 10) = .num 100 ∧
    numCell difficultyPercent (some (11 / 2)) = .num 50 := by
  refine ⟨?_, ?_, ?_, ?_, ?_, ?_⟩ <;>
    norm_num [difficultyPercent, pyRound2, pyRoundInt, numCell]

/-- **C6** (confirmed). The row builder of the load-concepts workflow
never raises when `srs_info` or any of its sub-fields is missing, and
each missing sub-field renders as the empty string: a concept without
`srs_info` yields a row whose four SRS cells are all empty; with
`srs_info` present but both dates missing a row is produced for every
stability/difficulty value; a missing numeric sub-field renders as the
empty string; and a missing date renders as the empty string without the
date formatter ever being consulted. -/
theorem concept_row_missing_fields (fmt : Str → Option Str) :
    (∀ nm ct : Option Str,
      buildConceptRow fmt ⟨nm, ct, none⟩
        = some [.str (nm.getD []), .str (ct.getD []),
                .str [], .str [], .str [], .str []]) ∧
    (∀ (nm ct : Option Str) (st d : Option ℚ),
      buildConceptRow fmt ⟨nm, ct, some ⟨st, d, none, none⟩⟩
        = some [.str (nm.getD []), .str (ct.getD []),
                numCell pyRound2 st, numCell difficultyPercent d,
                .str [], .str []]) ∧
    (∀ f : ℚ → ℚ, numCell f none = .str []) ∧
    dateCell fmt [] = some (.str []) :=
  ⟨fun _ _ => rfl, fun _ _ _ _ => rfl, fun _ => rfl, rfl⟩

/-- **C10** (confirmed). The blank-if-absent guard `not x` treats a
present-but-zero numeric value as absent: whenever the row builder
succeeds on a concept with `srs_info` present, a stability equal to `0`
makes the stability cell the empty string — not the number 0 — and,
independently, a difficulty equal to `0` makes the difficulty cell the
empty string rather than a number; each zero field suffices on its own,
whatever the other field holds. -/
theorem zero_srs_value_renders_blank (fmt : Str → Option Str)
    (c : ConceptItem) (s : SrsInfo) (row : List Cell)
    (hs : c.srs_info = some s)
    (hrow : buildConceptRow fmt c = some row) :
    (s.stability = some 0 →
      row.getD 2 (.num 99) = .str [] ∧ row.getD 2 (.num 99) ≠ .num 0) ∧
    (s.difficulty = some 0 →
      row.getD 3 (.num 99) = .str [] ∧ row.getD 3 (.num 99) ≠ .num 0) := by
  unfold buildConceptRow at hrow
  rw [hs] at hrow
  simp only [Option.getD_some] at hrow
  cases hdue : dateCell fmt (s.due.getD []) with
  | none => rw [hdue] at hrow; simp at hrow
  | some dc =>
    cases hlr : dateCell fmt (s.last_review.getD []) with
    | none => rw [hdue, hlr] at hrow; simp at hrow
    | some lc =>
      rw [hdue, hlr] at hrow
      simp at hrow
      subst hrow
      constructor
      · intro hst
        rw [hst]
        constructor <;> simp [numCell]
      · intro hd
        rw [hd]
        constructor <;> simp [numCell]

/-- Witness for C10 at two concrete concepts with missing dates: one with
zero stability but nonzero difficulty, one with nonzero stability but
zero difficulty. -/
theorem zero_srs_value_renders_blank_witness :
    ([Cell.str [], Cell.str [], Cell.str [], Cell.num (difficultyPercent 5),
        Cell.str [], Cell.str []].getD 2 (Cell.num 99) = Cell.str [] ∧
     [Cell.str [], Cell.str [], Cell.str [], Cell.num (difficultyPercent 5),
        Cell.str [], Cell.str []].getD 2 (Cell.num 99) ≠ Cell.num 0) ∧
    ([Cell.str [], Cell.str [], Cell.num (pyRound2 3), Cell.str [],
        Cell.str [], Cell.str []].getD 3 (Cell.num 99) = Cell.str [] ∧
     [Cell.str [], Cell.str [], Cell.num (pyRound2 3), Cell.str [],
        Cell.str [], Cell.str []].getD 3 (Cell.num 99) ≠ Cell.num 0) :=
  ⟨(zero_srs_value_renders_blank (fun _ => none)
      ⟨none, none, some ⟨some 0, some 5, none, none⟩⟩
      ⟨some 0, some 5, none, none⟩
      [Cell.str [], Cell.str [], Cell.str [], Cell.num (difficultyPercent 5),
       Cell.str [], Cell.str []] rfl
      (by norm_num [buildConceptRow, dateCell, numCell])).1 rfl,
   (zero_srs_value_renders_blank (fun _ => none)
      ⟨none, none, some ⟨some 3, some 0, none, none⟩⟩
      ⟨some 3, some 0, none, none⟩
      [Cell.str [], Cell.str [], Cell.num (pyRound2 3), Cell.str [],
       Cell.str [], Cell.str []] rfl
      (by norm_num [buildConceptRow, dateCell, numCell])).2 rfl⟩
